import Mathlib

/-
Verification of the gambit honeypot connection manager against its
specification.  The Go sources embedded here are
internal/conman/tcpmanager.go (SYN observer, listener registry,
per-connection handler), pkg/conman/store.go (artifact sinks and store
setup) and internal/drivers (the RDP driver, used only for its pattern
shape).  Bytes are modelled as Nat, byte buffers as List Nat, shared maps
as lists, and the per-connection handler as a function that returns the
ordered list of side effects it performs.
-/

namespace Gambit

/-! ## Raw SYN observer (tcpmanager.go, tcpManager) -/

/-- The standard TCP SYN flag bit.  Modelled from the spec: the probe
package that defines the flag constants is not part of the sources; a SYN
packet is a TCP segment with the SYN flag set, which is bit 1 of the flags
byte in a standard TCP header. -/
def SYN : Nat := 0x02

/-- The standard TCP ACK flag bit, bit 4 of the flags byte.  Modelled from
the spec, as for `SYN`. -/
def ACK : Nat := 0x10

/-- A decoded TCP header, as far as the SYN observer consumes it. -/
structure TCPPacket where
  destPort : Nat
  flags : Nat
  deriving DecidableEq, Repr

/-- Modelled from the spec: `probe.TCPPacket.Decode` decodes a standard TCP
header from the raw bytes (the probe package is not in the sources).  In a
standard TCP header the destination port is bytes 2-3 big-endian and the
flags live in byte 13. -/
def decodeTCP (bs : List Nat) : TCPPacket :=
  { destPort := bs.getD 2 0 * 256 + bs.getD 3 0
    flags := bs.getD 13 0 }

/-- One iteration of the SYN-observer loop body (tcpmanager.go lines
38-49): decode the packet and, if the SYN bit of the flags is set, request
a listener for the decoded destination port.  Returns the requested port,
or none when no request is issued.  The ACK flag is not consulted by the
source. -/
def synObserverRequest (bs : List Nat) : Option Nat :=
  let pkt := decodeTCP bs
  if pkt.flags &&& SYN ≠ 0 then some pkt.destPort else none

/-! ## Listener registry (tcpmanager.go, CreateTCPListener), sequential model -/

/-- The shared state touched by CreateTCPListener: the `s.tcpListeners`
map (modelled as the list of ports that have an entry), the set of ports
the operating system has bound (`net.Listen` fails with "address in use"
for a port already in it), and the number of accept goroutines spawned. -/
structure ListenerState where
  tcpListeners : List Nat
  osBound : List Nat
  acceptTasks : Nat
  deriving DecidableEq, Repr

/-- The empty registry at process start. -/
def initListeners : ListenerState := ⟨[], [], 0⟩

/-- The four outcomes of CreateTCPListener, keyed to its Go return value
(known bool, error): rejected = (false, err), alreadyPresent = (true, nil),
bindError = (true, err), created = (false, nil). -/
inductive CreateResult where
  | rejected
  | alreadyPresent
  | bindError
  | created
  deriving DecidableEq, Repr

/-- The Go (known, errored) pair corresponding to each outcome of
CreateTCPListener. -/
def toGoReturn : CreateResult → Bool × Bool
  | .rejected => (false, true)
  | .alreadyPresent => (true, false)
  | .bindError => (true, true)
  | .created => (false, false)

/-- Bind-address resolution (tcpmanager.go lines 64-75): default 0.0.0.0;
a configured "public" scans the local addresses and keeps the last
non-private IPv4 one; any other non-empty configured value is used
literally.  The privateIP test and the To4 test live outside the sources,
so they are taken as a combined predicate argument. -/
def resolveAddress (bindAddress : String) (addresses : List String)
    (isPublicIPv4 : String → Bool) : String :=
  if bindAddress = "" then "0.0.0.0"
  else if bindAddress = "public" then
    addresses.foldl (fun acc a => if isPublicIPv4 a then a else acc) "0.0.0.0"
  else bindAddress

/-- CreateTCPListener (tcpmanager.go lines 55-101) run atomically: reject
ports above MaxPort; return already-present without touching the state
when the registry has an entry; otherwise bind (which fails when the OS
already has the port bound), insert the listener into the registry and
spawn the accept goroutine.  The `wg.Wait()` on the fresh local WaitGroup
at line 62 is a no-op and the address resolution is pure, so neither
affects the state. -/
def createTCPListener (maxPort : Nat) (st : ListenerState) (port : Nat) :
    CreateResult × ListenerState :=
  if maxPort < port then (.rejected, st)
  else if port ∈ st.tcpListeners then (.alreadyPresent, st)
  else if port ∈ st.osBound then (.bindError, st)
  else (.created, ⟨port :: st.tcpListeners, port :: st.osBound, st.acceptTasks + 1⟩)

/-- A sequence of CreateTCPListener calls, threading the state. -/
def runCreates (maxPort : Nat) (st : ListenerState) : List Nat → ListenerState
  | [] => st
  | q :: qs => runCreates maxPort (createTCPListener maxPort st q).2 qs

/-! ## Listener registry, concurrent model

CreateTCPListener holds no lock (the local `wg.Wait()` is a no-op), so N
concurrent calls for the same port interleave their atomic actions: the
registry lookup at line 78, the `net.Listen` bind at line 80 (the OS
grants a port to exactly one binder), and the registry insert at line 84.
Each call is a task with a program counter over those actions; a schedule
is a list of task indices. -/

/-- The program counter of one concurrent CreateTCPListener call for a
fixed port: before the registry check, before the bind, before the
registry insert, or finished with one of the four outcomes. -/
inductive PC where
  | atCheck
  | atBind
  | atInsert
  | dRejected
  | dAlready
  | dErr
  | dCreated
  deriving DecidableEq, Repr

/-- State shared by the concurrent calls for one port p: whether the OS
has p bound, and whether the registry has an entry for p, plus every
task's program counter. -/
structure CState where
  os : Bool
  reg : Bool
  tasks : List PC
  deriving DecidableEq, Repr

/-- One atomic action of a single call (tcpmanager.go): at the check,
ports above MaxPort are rejected and an existing registry entry returns
already-present; at the bind, `net.Listen` fails iff the OS already has
the port, else it acquires it; at the insert, the registry entry is
written.  Returns the new program counter and the new shared bits. -/
def stepPC (maxPort p : Nat) (os reg : Bool) : PC → PC × Bool × Bool
  | .atCheck =>
    if maxPort < p then (.dRejected, os, reg)
    else if reg then (.dAlready, os, reg)
    else (.atBind, os, reg)
  | .atBind => if os then (.dErr, os, reg) else (.atInsert, true, reg)
  | .atInsert => (.dCreated, os, true)
  | pc => (pc, os, reg)

/-- Run the next atomic action of task i (done tasks and out-of-range
indices do nothing). -/
def stepTasks (maxPort p : Nat) (os reg : Bool) :
    List PC → Nat → List PC × Bool × Bool
  | [], _ => ([], os, reg)
  | pc :: rest, 0 =>
    let r := stepPC maxPort p os reg pc
    (r.1 :: rest, r.2)
  | pc :: rest, i + 1 =>
    let r := stepTasks maxPort p os reg rest i
    (pc :: r.1, r.2)

/-- One scheduler step: task i performs its next atomic action. -/
def cstep (maxPort p : Nat) (s : CState) (i : Nat) : CState :=
  let r := stepTasks maxPort p s.os s.reg s.tasks i
  ⟨r.2.1, r.2.2, r.1⟩

/-- Run a whole schedule (a list of task indices). -/
def crun (maxPort p : Nat) : List Nat → CState → CState
  | [], s => s
  | i :: tr, s => crun maxPort p tr (cstep maxPort p s i)

/-- N concurrent CreateTCPListener calls for a port not yet known to the
registry or the OS. -/
def initC (n : Nat) : CState := ⟨false, false, List.replicate n .atCheck⟩

/-- A task is done when it has reached one of the four outcomes. -/
def isDonePC : PC → Bool
  | .dRejected => true
  | .dAlready => true
  | .dErr => true
  | .dCreated => true
  | _ => false

/-- Every task has finished. -/
def allDone (s : CState) : Bool := s.tasks.all isDonePC

/-- Count the tasks whose program counter satisfies f. -/
def countP (f : PC → Bool) (l : List PC) : Nat := (l.filter f).length

/-- Tasks that have completed the whole create path. -/
def isCreatedPC : PC → Bool
  | .dCreated => true
  | _ => false

/-- Tasks that have bound the port but not yet inserted it. -/
def isInsertPC : PC → Bool
  | .atInsert => true
  | _ => false

/-- Tasks that own the OS binding: past a successful bind. -/
def winners (l : List PC) : Nat := countP isInsertPC l + countP isCreatedPC l

/-- The execution invariant of the concurrent create calls: at most one
task ever gets past the bind (the OS grants the port once), the OS bit is
set exactly when one has, the registry bit is set exactly when one task
has completed the insert, no task was rejected (the port is within
MaxPort), and the already-present and bind-error outcomes can only have
been produced after the registry or OS bit was set. -/
def InvC (s : CState) : Prop :=
  winners s.tasks ≤ 1 ∧
  (s.os = true ↔ winners s.tasks = 1) ∧
  (s.reg = true ↔ countP isCreatedPC s.tasks = 1) ∧
  PC.dRejected ∉ s.tasks ∧
  (PC.dAlready ∈ s.tasks → s.reg = true) ∧
  (PC.dErr ∈ s.tasks → s.os = true)

/-! ## Per-connection handler (tcpmanager.go, handleConnection) -/

/-- The observable side effects of handleConnection, in program order:
tickBan is the ban-tracker tick, createSniffer is NewMuxConn plus
StartSniffing, sendRaw is a send on the store channel, route i delivers
the connection to driver i's ingress channel, close is a connection
close. -/
inductive Effect where
  | tickBan
  | close
  | createSniffer
  | spawnBanner
  | spawnTimeout
  | sniffRead
  | cancelBanner
  | cancelTimeout
  | doneSniffing
  | tlsAttempt (success : Bool)
  | reset
  | sendRaw (filename : List Nat) (location : String) (data : List Nat)
  | route (driver : Nat)
  | logNoDriver
  deriving DecidableEq, Repr

/-- The outcome of the single sniff read (Go `r.Read(buf)` error value):
nil, io.EOF, or any other error. -/
inductive ReadErr where
  | ok
  | eof
  | other
  deriving DecidableEq, Repr

/-- The per-connection inputs the handler reacts to: whether the remote
address is a TCP address, what the ban tick returned, the bytes the single
sniff read produced, its error value, and — when the first byte is 0x16 —
whether unwrapTLS succeeded and which cleartext bytes it then sniffed
(unwrapTLS itself is outside the sources; the spec says it returns a new
sniffing connection plus the first sniffed cleartext buffer). -/
structure ConnInput where
  remoteIsTCP : Bool
  banned : Bool
  readBytes : List Nat
  readErr : ReadErr
  tlsResult : Option (List Nat)
  deriving DecidableEq, Repr

/-- The Go read buffer is `make([]byte, 1500)`: the n read bytes followed
by zero padding up to 1500. -/
def pad1500 (bs : List Nat) : List Nat := bs ++ List.replicate (1500 - bs.length) 0

/-- The significant sniffed bytes `buf[:n]` after the optional TLS unwrap:
the cleartext bytes when the first buffer byte is 0x16 and the unwrap
succeeded, the original read bytes otherwise. -/
def sniffedData (inp : ConnInput) : List Nat :=
  if (pad1500 inp.readBytes).headD 0 = 0x16 then
    match inp.tlsResult with
    | some clear => clear
    | none => inp.readBytes
  else inp.readBytes

/-- The full 1500-byte buffer the handler holds after the optional TLS
unwrap.  tcpmanager.go line 171 passes this whole buffer — not `buf[:n]` —
to `s.tcpRules.Match`. -/
def matchBuf (inp : ConnInput) : List Nat := pad1500 (sniffedData inp)

/-- The TLS detection effects (tcpmanager.go lines 141-152): when the
first buffer byte is 0x16 the sniffer is put in done-sniffing mode and an
unwrap is attempted. -/
def tlsEffects (inp : ConnInput) : List Effect :=
  if (pad1500 inp.readBytes).headD 0 = 0x16 then
    match inp.tlsResult with
    | some _ => [.doneSniffing, .tlsAttempt true]
    | none => [.doneSniffing, .tlsAttempt false]
  else []

/-- Boolean prefix test on byte lists: `startsWith pat buf` holds when buf
begins with pat. -/
def startsWith : List Nat → List Nat → Bool
  | [], _ => true
  | _ :: _, [] => false
  | a :: pat, b :: buf => a = b && startsWith pat buf

/-- Modelled from the spec: the driver registry's Match scans the
registered patterns and returns the index and length of the pattern that
is the longest prefix of the buffer, earlier registration winning ties
(the registry implementation is not in the sources).  The first component
counts from i. -/
def matchGo (buf : List Nat) (i : Nat) : List (List Nat) → Option (Nat × Nat)
  | [] => none
  | pat :: rest =>
    let r := matchGo buf (i + 1) rest
    if startsWith pat buf then
      match r with
      | none => some (i, pat.length)
      | some jl => if pat.length < jl.2 then some jl else some (i, pat.length)
    else r

/-- Modelled from the spec: `tcpRules.Match` — the index of the driver
whose pattern is the longest prefix of the buffer, or none. -/
def matchRule (rules : List (List Nat)) (buf : List Nat) : Option Nat :=
  (matchGo buf 0 rules).map Prod.fst

/-- The specification-side statement that driver i is the right choice for
buf: its pattern is a prefix of buf, no prefix pattern is longer, and on
equal length the chosen index is the earliest. -/
def IsBestMatch (rules : List (List Nat)) (buf : List Nat) (i : Nat) : Prop :=
  ∃ pat, rules[i]? = some pat ∧ startsWith pat buf = true ∧
    ∀ j pat', rules[j]? = some pat' → startsWith pat' buf = true →
      pat'.length ≤ pat.length ∧ (pat'.length = pat.length → i ≤ j)

/-- The effects of handleConnection after the ban check (tcpmanager.go
lines 113-189), in source order: wrap and start sniffing, spawn the banner
and timeout goroutines, perform the single read; on a non-EOF read error
close the connection — the source then falls through rather than
returning; cancel the banner and the timeout; attempt the TLS unwrap when
the first buffer byte is 0x16; Reset; hash `buf[:n]` and, when n > 0 and
the hash is not a key of `s.knownHashes`, send the raw artifact record on
the store channel — the source never stores the hash into `knownHashes`;
match the full padded buffer against the rules; Reset again; then route to
the matched driver, or log (when n > 0) and close. -/
def handlerBody (rules : List (List Nat)) (hashFn : List Nat → List Nat)
    (knownHashes : List (List Nat)) (inp : ConnInput) : List Effect :=
  [.createSniffer, .spawnBanner, .spawnTimeout, .sniffRead]
  ++ (if inp.readErr = .other then [.close] else [])
  ++ [.cancelBanner, .cancelTimeout]
  ++ tlsEffects inp
  ++ [.reset]
  ++ (if 0 < (sniffedData inp).length ∧ hashFn (sniffedData inp) ∉ knownHashes then
        [.sendRaw (hashFn (sniffedData inp)) "raw" (sniffedData inp)]
      else [])
  ++ [.reset]
  ++ (match matchRule rules (matchBuf inp) with
      | some i => [.route i]
      | none => (if 0 < (sniffedData inp).length then [.logNoDriver] else []) ++ [.close])

/-- handleConnection (tcpmanager.go lines 103-190).  For a TCP remote
address the ban tracker is ticked first and a banned connection is closed
at once; otherwise the body runs.  `drivers.GetHash` is outside the
sources and the spec only fixes it as a deterministic hash of the sniff
buffer, so it is a function argument.  The returned state is the
`s.knownHashes` key set, which the handler reads but never writes. -/
def handleConnection (rules : List (List Nat)) (hashFn : List Nat → List Nat)
    (knownHashes : List (List Nat)) (inp : ConnInput) :
    List (List Nat) × List Effect :=
  if inp.remoteIsTCP then
    if inp.banned then (knownHashes, [.tickBan, .close])
    else (knownHashes, .tickBan :: handlerBody rules hashFn knownHashes inp)
  else (knownHashes, handlerBody rules hashFn knownHashes inp)

/-- A sequence of connections handled one after the other, threading the
known-hash state and concatenating the effects. -/
def runConnections (rules : List (List Nat)) (hashFn : List Nat → List Nat) :
    List (List Nat) → List ConnInput → List (List Nat) × List Effect
  | kh, [] => (kh, [])
  | kh, inp :: rest =>
    let r := handleConnection rules hashFn kh inp
    let s := runConnections rules hashFn r.1 rest
    (s.1, r.2 ++ s.2)

/-- Recognise a raw-artifact send among the effects. -/
def isSendRaw : Effect → Bool
  | .sendRaw _ _ _ => true
  | _ => false

/-- How many raw-artifact records a list of effects sends. -/
def countSendRaw (effs : List Effect) : Nat := (effs.filter isSendRaw).length

/-- The driver an effect list routes to, if any. -/
def routedDriver : List Effect → Option Nat
  | [] => none
  | .route i :: _ => some i
  | _ :: effs => routedDriver effs

/-! ## Artifact store (store.go) -/

/-- What a sink does for one record: a local file write (with the bytes
actually written), a debug log on failure, or an S3 upload (with the bytes
actually uploaded). -/
inductive SinkAction where
  | localWrite (path : String) (data : List Nat)
  | logDebug
  | s3Upload (bucket : String) (key : String) (data : List Nat)
  deriving DecidableEq, Repr

/-- Store (store.go lines 15-32): when OutputFolder is non-empty, write
`OutputFolder/location/filename` with the sanitized bytes, logging any
write error; then, when the uploader is configured, upload the original
bytes under `location/filename`.  The local result never gates the upload.
The Sanitize method lives outside this file, so it is an argument;
localWriteOk says whether ioutil.WriteFile succeeded. -/
def storeFile (outputFolder s3Bucket : String) (hasUploader : Bool)
    (sanitize : List Nat → List Nat) (localWriteOk : Bool)
    (filename location : String) (data : List Nat) : List SinkAction :=
  (if outputFolder ≠ "" then
    [.localWrite (outputFolder ++ "/" ++ location ++ "/" ++ filename) (sanitize data)]
    ++ (if localWriteOk then [] else [.logDebug])
  else [])
  ++ (if hasUploader then [.s3Upload s3Bucket (location ++ "/" ++ filename) data] else [])

/-- The subset of the configuration setupStore reads. -/
structure ConmanConfig where
  outputFolder : String
  s3Key : String
  deriving DecidableEq, Repr

/-- Modelled from Go os.Mkdir over a filesystem pictured as the list of
existing paths: creating a directory that already exists fails (failure
modes such as a missing parent are outside this model). -/
def mkdir (fs : List String) (path : String) : Except String (List String) :=
  if path ∈ fs then .error "file exists" else .ok (path :: fs)

/-- The OutputFolder rewrite at store.go lines 37-43: "." becomes the
working directory with a trailing separator; anything else is kept
verbatim. -/
def resolveOutputFolder (cwd outputFolder : String) : String :=
  if outputFolder = "." then cwd ++ "/" else outputFolder

/-- What setupStore leaves behind on success: the rewritten OutputFolder,
whether the S3 uploader was configured, and the filesystem. -/
structure StoreSetup where
  outputFolder : String
  uploaderSet : Bool
  fs : List String
  deriving DecidableEq, Repr

/-- setupStore (store.go lines 34-65): rewrite ".", then — when the folder
is non-empty — os.Mkdir of OutputFolder+"raw" and OutputFolder+"sessions"
(string concatenation, no separator inserted), returning the first Mkdir
error; finally configure the S3 uploader iff S3Key is non-empty. -/
def setupStore (cwd : String) (cfg : ConmanConfig) (fs : List String) :
    Except String StoreSetup :=
  let out := resolveOutputFolder cwd cfg.outputFolder
  let step : Except String (List String) :=
    if out ≠ "" then
      match mkdir fs (out ++ "raw") with
      | .error e => .error e
      | .ok fs1 => mkdir fs1 (out ++ "sessions")
    else .ok fs
  match step with
  | .error e => .error e
  | .ok fs2 => .ok ⟨out, cfg.s3Key != "", fs2⟩

end Gambit

namespace Gambit

/-! ## Helper lemmas -/

theorem runCreates_mem_le (maxPort : Nat) :
    ∀ (qs : List Nat) (st : ListenerState),
    (∀ q ∈ st.tcpListeners, q ≤ maxPort) → (∀ q ∈ st.osBound, q ≤ maxPort) →
    (∀ q ∈ (runCreates maxPort st qs).tcpListeners, q ≤ maxPort) ∧
      (∀ q ∈ (runCreates maxPort st qs).osBound, q ≤ maxPort) := by
  intro qs
  induction qs with
  | nil => intro st h1 h2; exact ⟨h1, h2⟩
  | cons q qs ih =>
    intro st h1 h2
    simp only [runCreates]
    apply ih
    · intro x hx
      unfold createTCPListener at hx
      split at hx
      · exact h1 x hx
      · split at hx
        · exact h1 x hx
        · split at hx
          · exact h1 x hx
          · simp only [List.mem_cons] at hx
            rcases hx with rfl | hx
            · omega
            · exact h1 x hx
    · intro x hx
      unfold createTCPListener at hx
      split at hx
      · exact h2 x hx
      · split at hx
        · exact h2 x hx
        · split at hx
          · exact h2 x hx
          · simp only [List.mem_cons] at hx
            rcases hx with rfl | hx
            · omega
            · exact h2 x hx

end Gambit

namespace Gambit

/-! ## C6: ports above MaxPort are rejected and never bound -/

/-- C6.  For every port p with p > MaxPort, CreateTCPListener(p) returns
the rejection error without touching the state (tcpmanager.go lines
58-60), and after any sequence of CreateTCPListener calls from the initial
state, p has neither a registry entry nor an OS binding. -/
theorem create_rejects_ports_above_maxport (maxPort p : Nat) (st : ListenerState)
    (qs : List Nat) (hp : maxPort < p) :
    createTCPListener maxPort st p = (.rejected, st) ∧
    (toGoReturn (createTCPListener maxPort st p).1).2 = true ∧
    p ∉ (runCreates maxPort initListeners qs).tcpListeners ∧
    p ∉ (runCreates maxPort initListeners qs).osBound := by
  have hcreate : createTCPListener maxPort st p = (.rejected, st) := by
    unfold createTCPListener
    rw [if_pos hp]
  have hb := runCreates_mem_le maxPort qs initListeners
    (by intro q hq; simp [initListeners] at hq) (by intro q hq; simp [initListeners] at hq)
  refine ⟨hcreate, by rw [hcreate]; rfl, ?_, ?_⟩
  · intro hmem
    have := hb.1 p hmem
    omega
  · intro hmem
    have := hb.2 p hmem
    omega

/-- Witness for C6 at MaxPort 10000, port 20000, after a call for 4444. -/
theorem create_rejects_ports_above_maxport_witness :
    createTCPListener 10000 initListeners 20000 = (.rejected, initListeners) ∧
    (toGoReturn (createTCPListener 10000 initListeners 20000).1).2 = true ∧
    20000 ∉ (runCreates 10000 initListeners [4444]).tcpListeners ∧
    20000 ∉ (runCreates 10000 initListeners [4444]).osBound :=
  create_rejects_ports_above_maxport 10000 20000 initListeners [4444] (by decide)

/-! ## C7: CreateTCPListener is idempotent once an entry exists -/

/-- C7.  After any sequence of CreateTCPListener calls from the initial
state, a further call for a port that already has a registry entry returns
already-present (Go `(true, nil)`, tcpmanager.go lines 78 and 100) and
leaves the whole state — registry, OS bindings and the count of accept
goroutines — unchanged. -/
theorem create_idempotent_when_entry_exists (maxPort p : Nat) (qs : List Nat)
    (hmem : p ∈ (runCreates maxPort initListeners qs).tcpListeners) :
    createTCPListener maxPort (runCreates maxPort initListeners qs) p =
      (.alreadyPresent, runCreates maxPort initListeners qs) := by
  have hb := runCreates_mem_le maxPort qs initListeners
    (by intro q hq; simp [initListeners] at hq) (by intro q hq; simp [initListeners] at hq)
  have hple : p ≤ maxPort := hb.1 p hmem
  unfold createTCPListener
  rw [if_neg (by omega), if_pos hmem]

/-- Witness for C7: after creating 4444, a second call for 4444 is a
no-op returning already-present. -/
theorem create_idempotent_when_entry_exists_witness :
    createTCPListener 10000 (runCreates 10000 initListeners [4444]) 4444 =
      (.alreadyPresent, runCreates 10000 initListeners [4444]) :=
  create_idempotent_when_entry_exists 10000 4444 [4444] (by decide)

/-! ## C8: banned connections are closed before anything else -/

/-- C8.  For a connection from a TCP remote address whose ban tick reports
the IP banned, the handler closes the connection at once (tcpmanager.go
lines 106-111): the only effects are the tick and the close — the sniffer
is never created, no bytes are read, and neither the banner goroutine nor
the timeout goroutine is spawned — and the known-hash state is untouched. -/
theorem banned_connection_closed_immediately (rules : List (List Nat))
    (hashFn : List Nat → List Nat) (kh : List (List Nat)) (inp : ConnInput)
    (htcp : inp.remoteIsTCP = true) (hban : inp.banned = true) :
    handleConnection rules hashFn kh inp = (kh, [.tickBan, .close]) := by
  unfold handleConnection
  rw [htcp, hban]
  simp

/-- Witness for C8 at a concrete banned connection carrying payload. -/
theorem banned_connection_closed_immediately_witness :
    handleConnection [[3, 0, 0]] (fun b => b) [] ⟨true, true, [71, 69, 84], .ok, none⟩ =
      ([], [.tickBan, .close]) :=
  banned_connection_closed_immediately [[3, 0, 0]] (fun b => b) []
    ⟨true, true, [71, 69, 84], .ok, none⟩ rfl rfl

end Gambit

namespace Gambit

/-! ## C9: setupStore -/

/-- C9, counterexample.  Two failing runs of the original claim.  First,
with the non-empty OutputFolder "out/" and the directory out/raw already
existing, setupStore fails (store.go line 45 returns the os.Mkdir error
instead of tolerating an existing directory), while the claim says it
succeeds in particular when the subdirectories already existed beforehand.
Second, with the non-empty OutputFolder "out" (no trailing separator) on
an empty filesystem, setupStore succeeds but creates the sibling
directories outraw and outsessions — store.go lines 45 and 48 append
"raw" and "sessions" without inserting a separator — so the subdirectories
out/raw and out/sessions of OutputFolder do not exist afterwards, while
the claim says they do whenever they had to be created. -/
theorem setupstore_fails_when_raw_exists :
    (setupStore "/home/user" ⟨"out/", ""⟩ ["out/raw"] = .error "file exists" ∧
      ("out/" : String) ≠ "") ∧
    (setupStore "/home/user" ⟨"out", ""⟩ [] =
        .ok ⟨"out", false, ["outsessions", "outraw"]⟩ ∧
      ("out" : String) ≠ "" ∧
      ("out/raw" : String) ∉ (["outsessions", "outraw"] : List String) ∧
      ("out/sessions" : String) ∉ (["outsessions", "outraw"] : List String)) := by
  refine ⟨⟨rfl, by decide⟩, rfl, by decide, by decide, by decide⟩

/-- C9, amended.  OutputFolder "." resolves to the working directory plus
a path separator; for every non-empty resolved OutputFolder, setupStore
creates the directories OutputFolder+"raw" and OutputFolder+"sessions"
(appended without inserting a separator, so the subdirectories raw/ and
sessions/ of OutputFolder exactly when it ends in a separator): it
succeeds, both directories exist afterwards, and the S3 uploader is
configured iff S3Key is non-empty, exactly when neither directory already
existed; when either already existed, setupStore returns the Mkdir
error. -/
theorem setupstore_creates_missing_directories (cwd : String) (cfg : ConmanConfig)
    (fs : List String)
    (h0 : resolveOutputFolder cwd cfg.outputFolder ≠ "") :
    (resolveOutputFolder cwd cfg.outputFolder ++ "raw" ∉ fs →
      resolveOutputFolder cwd cfg.outputFolder ++ "sessions" ∉ fs →
      ∃ st, setupStore cwd cfg fs = .ok st ∧
        st.outputFolder = resolveOutputFolder cwd cfg.outputFolder ∧
        st.outputFolder ++ "raw" ∈ st.fs ∧
        st.outputFolder ++ "sessions" ∈ st.fs ∧
        st.uploaderSet = (cfg.s3Key != "")) ∧
    ((resolveOutputFolder cwd cfg.outputFolder ++ "raw" ∈ fs ∨
      resolveOutputFolder cwd cfg.outputFolder ++ "sessions" ∈ fs) →
      setupStore cwd cfg fs = .error "file exists") ∧
    resolveOutputFolder cwd "." = cwd ++ "/" := by
  refine ⟨?_, ?_, by simp [resolveOutputFolder]⟩
  · intro h1 h2
    have hne : resolveOutputFolder cwd cfg.outputFolder ++ "sessions" ≠
        resolveOutputFolder cwd cfg.outputFolder ++ "raw" := by
      intro h
      have hl := congrArg String.length h
      simp only [String.length_append] at hl
      have : ("sessions" : String).length = ("raw" : String).length := by omega
      exact absurd this (by decide)
    have hmem2 : resolveOutputFolder cwd cfg.outputFolder ++ "sessions" ∉
        (resolveOutputFolder cwd cfg.outputFolder ++ "raw") :: fs := by
      intro hmem
      rcases List.mem_cons.mp hmem with h | h
      · exact hne h
      · exact h2 h
    refine ⟨⟨resolveOutputFolder cwd cfg.outputFolder, cfg.s3Key != "",
      [resolveOutputFolder cwd cfg.outputFolder ++ "sessions",
       resolveOutputFolder cwd cfg.outputFolder ++ "raw"] ++ fs⟩, ?_, rfl, ?_, ?_, rfl⟩
    · simp only [setupStore, mkdir]
      rw [if_pos h0, if_neg h1]
      simp only [if_neg hmem2]
      rfl
    · simp
    · simp
  · intro hmem
    by_cases hraw : resolveOutputFolder cwd cfg.outputFolder ++ "raw" ∈ fs
    · simp only [setupStore, mkdir]
      rw [if_pos h0, if_pos hraw]
    · have hses : resolveOutputFolder cwd cfg.outputFolder ++ "sessions" ∈ fs := by
        rcases hmem with h | h
        · exact absurd h hraw
        · exact h
      have hmem1 : resolveOutputFolder cwd cfg.outputFolder ++ "sessions" ∈
          (resolveOutputFolder cwd cfg.outputFolder ++ "raw") :: fs :=
        List.mem_cons.mpr (Or.inr hses)
      simp only [setupStore, mkdir]
      rw [if_pos h0, if_neg hraw]
      simp only [if_pos hmem1]

/-- Witness for C9 amended: OutputFolder "out/" with an S3 key
configured, over an arbitrary-content filesystem list. -/
theorem setupstore_creates_missing_directories_witness :
    (resolveOutputFolder "/home/user" "out/" ++ "raw" ∉ (["other"] : List String) →
      resolveOutputFolder "/home/user" "out/" ++ "sessions" ∉ (["other"] : List String) →
      ∃ st, setupStore "/home/user" ⟨"out/", "secret"⟩ ["other"] = .ok st ∧
        st.outputFolder = resolveOutputFolder "/home/user" "out/" ∧
        st.outputFolder ++ "raw" ∈ st.fs ∧
        st.outputFolder ++ "sessions" ∈ st.fs ∧
        st.uploaderSet = (("secret" : String) != "")) ∧
    ((resolveOutputFolder "/home/user" "out/" ++ "raw" ∈ (["other"] : List String) ∨
      resolveOutputFolder "/home/user" "out/" ++ "sessions" ∈ (["other"] : List String)) →
      setupStore "/home/user" ⟨"out/", "secret"⟩ ["other"] = .error "file exists") ∧
    resolveOutputFolder "/home/user" "." = "/home/user" ++ "/" :=
  setupstore_creates_missing_directories "/home/user" ⟨"out/", "secret"⟩ ["other"]
    (by decide)

/-! ## C10: sanitizer applies only to the local sink -/

/-- C10.  For every artifact record, when both sinks are configured, the
local write carries the sanitized bytes while the S3 upload carries the
original bytes unchanged, and both actions are attempted whatever the
outcome of the local write (store.go lines 17-31: the WriteFile error is
only logged before the upload runs). -/
theorem store_sanitizes_only_local_sink (outputFolder s3Bucket : String)
    (hasUploader : Bool) (sanitize : List Nat → List Nat) (localWriteOk : Bool)
    (filename location : String) (data : List Nat)
    (hu : hasUploader = true) (ho : outputFolder ≠ "") :
    SinkAction.s3Upload s3Bucket (location ++ "/" ++ filename) data ∈
      storeFile outputFolder s3Bucket hasUploader sanitize localWriteOk filename location data ∧
    SinkAction.localWrite (outputFolder ++ "/" ++ location ++ "/" ++ filename)
        (sanitize data) ∈
      storeFile outputFolder s3Bucket hasUploader sanitize localWriteOk filename location data := by
  unfold storeFile
  rw [hu, if_pos ho]
  constructor
  · simp
  · simp

/-- Witness for C10: a sanitizer that erases the data entirely, a failing
local write, and both sinks configured. -/
theorem store_sanitizes_only_local_sink_witness :
    SinkAction.s3Upload "bkt" ("raw" ++ "/" ++ "f") [1, 2, 3] ∈
      storeFile "out" "bkt" true (fun _ => []) false "f" "raw" [1, 2, 3] ∧
    SinkAction.localWrite ("out" ++ "/" ++ "raw" ++ "/" ++ "f") ((fun _ => ([] : List Nat)) [1, 2, 3]) ∈
      storeFile "out" "bkt" true (fun _ => []) false "f" "raw" [1, 2, 3] :=
  store_sanitizes_only_local_sink "out" "bkt" true (fun _ => []) false "f" "raw"
    [1, 2, 3] rfl (by decide)

/-! ## C5: which packets trigger a listener request -/

/-- C5, counterexample.  A well-formed TCP header whose flags byte is 0x12
(SYN and ACK both set, destination port 4444) still makes the observer
request a listener — tcpmanager.go line 40 tests only `Flags&SYN != 0` —
whereas the claim requires a request exactly when SYN is set and ACK is
not. -/
theorem syn_ack_packet_still_requests_listener :
    synObserverRequest
        [0, 80, 17, 92, 0, 0, 0, 0, 0, 0, 0, 0, 80, 18, 0, 0, 0, 0, 0, 0] = some 4444 ∧
    (decodeTCP [0, 80, 17, 92, 0, 0, 0, 0, 0, 0, 0, 0, 80, 18, 0, 0, 0, 0, 0, 0]).flags
        &&& SYN ≠ 0 ∧
    (decodeTCP [0, 80, 17, 92, 0, 0, 0, 0, 0, 0, 0, 0, 80, 18, 0, 0, 0, 0, 0, 0]).flags
        &&& ACK ≠ 0 := by
  refine ⟨rfl, ?_, ?_⟩ <;> decide

/-- C5, amended.  A listener-creation request is issued for the decoded
destination port exactly when the packet's SYN flag is set, regardless of
the ACK flag. -/
theorem listener_requested_iff_syn_set (bs : List Nat) (p : Nat) :
    synObserverRequest bs = some p ↔
      ((decodeTCP bs).flags &&& SYN ≠ 0 ∧ p = (decodeTCP bs).destPort) := by
  unfold synObserverRequest
  by_cases h : (decodeTCP bs).flags &&& SYN ≠ 0
  · rw [if_pos h]
    simp [h, eq_comm]
  · rw [if_neg h]
    simp [h]

/-- Witness for C5 amended: a pure SYN packet (flags byte 0x02) for
destination port 4444 yields a request for 4444. -/
theorem listener_requested_iff_syn_set_witness :
    synObserverRequest
        [0, 80, 17, 92, 0, 0, 0, 0, 0, 0, 0, 0, 80, 2, 0, 0, 0, 0, 0, 0] = some 4444 :=
  (listener_requested_iff_syn_set
    [0, 80, 17, 92, 0, 0, 0, 0, 0, 0, 0, 0, 80, 2, 0, 0, 0, 0, 0, 0] 4444).mpr
    (by constructor <;> decide)

/-! ## C1: the raw-artifact dedup never records the hash -/

/-- C1, failing run.  The handler checks `s.knownHashes.Load(hash)` before
sending the raw artifact but never stores the hash (tcpmanager.go lines
163-168 contain no `knownHashes.Store`), so two successive connections
with the same non-empty sniff buffer [65] each send a raw artifact record:
two sendRaw effects, both for the same fingerprint, and the known-hash set
is still empty afterwards — where the claim promises at most one raw
record per fingerprint hash per process lifetime. -/
theorem raw_artifact_written_twice_for_same_hash :
    countSendRaw (runConnections [] (fun b => b) []
      [⟨true, false, [65], .ok, none⟩, ⟨true, false, [65], .ok, none⟩]).2 = 2 ∧
    (∀ e ∈ (runConnections [] (fun b => b) []
      [⟨true, false, [65], .ok, none⟩, ⟨true, false, [65], .ok, none⟩]).2,
      isSendRaw e = true → e = .sendRaw [65] "raw" [65]) ∧
    (runConnections [] (fun b => b) []
      [⟨true, false, [65], .ok, none⟩, ⟨true, false, [65], .ok, none⟩]).1 = [] := by
  refine ⟨rfl, ?_, rfl⟩
  decide

/-! ## C3: the non-EOF read error path falls through -/

/-- C3, failing run.  For a connection whose sniff read fails with a
non-EOF error, the handler closes the connection (tcpmanager.go line 135)
but does not return: the effect trace continues past the close with the
banner and timeout cancellations, the sniffer Resets of the TLS/fingerprint
steps, the driver match, and a second close — where the claim says the
handler returns right after the close, performing none of the subsequent
steps. -/
theorem sniff_error_handler_continues_after_close :
    handleConnection [] (fun b => b) [] ⟨true, false, [], .other, none⟩ =
      ([], [.tickBan, .createSniffer, .spawnBanner, .spawnTimeout, .sniffRead, .close,
            .cancelBanner, .cancelTimeout, .reset, .reset, .close]) := by
  rfl

end Gambit

namespace Gambit

/-! ## Longest-prefix matcher lemmas -/

theorem matchGo_eq_none (buf : List Nat) :
    ∀ (rules : List (List Nat)) (i : Nat), matchGo buf i rules = none →
    ∀ (m : Nat) (pat : List Nat), rules[m]? = some pat → startsWith pat buf = false := by
  intro rules
  induction rules with
  | nil => intro i h m pat hm; simp at hm
  | cons pat0 rest ih =>
    intro i h m pat hm
    simp only [matchGo] at h
    by_cases hsw : startsWith pat0 buf = true
    · rw [if_pos hsw] at h
      rcases hr : matchGo buf (i + 1) rest with _ | jl
      · rw [hr] at h; simp at h
      · rw [hr] at h
        dsimp only at h
        split at h <;> simp at h
    · rw [if_neg hsw] at h
      cases m with
      | zero =>
        simp only [List.getElem?_cons_zero, Option.some.injEq] at hm
        subst hm
        simpa using hsw
      | succ m => exact ih (i + 1) h m pat (by simpa using hm)

theorem matchGo_none_of_all (buf : List Nat) :
    ∀ (rules : List (List Nat)) (i : Nat),
    (∀ pat ∈ rules, startsWith pat buf = false) → matchGo buf i rules = none := by
  intro rules
  induction rules with
  | nil => intro i h; rfl
  | cons pat0 rest ih =>
    intro i h
    simp only [matchGo]
    rw [if_neg (by simp [h pat0 (List.mem_cons_self pat0 rest)])]
    exact ih (i + 1) (fun pat hp => h pat (List.mem_cons_of_mem pat0 hp))

theorem matchGo_best (buf : List Nat) :
    ∀ (rules : List (List Nat)) (i j l : Nat), matchGo buf i rules = some (j, l) →
    ∃ k pat, rules[k]? = some pat ∧ j = i + k ∧ l = pat.length ∧
      startsWith pat buf = true ∧
      ∀ (m : Nat) (pat' : List Nat), rules[m]? = some pat' → startsWith pat' buf = true →
        pat'.length ≤ l ∧ (pat'.length = l → k ≤ m) := by
  intro rules
  induction rules with
  | nil => intro i j l h; simp [matchGo] at h
  | cons pat0 rest ih =>
    intro i j l h
    simp only [matchGo] at h
    by_cases hsw : startsWith pat0 buf = true
    · rw [if_pos hsw] at h
      rcases hr : matchGo buf (i + 1) rest with _ | ⟨j', l'⟩
      · rw [hr] at h
        simp only [Option.some.injEq, Prod.mk.injEq] at h
        obtain ⟨hj, hl⟩ := h
        refine ⟨0, pat0, by simp, by omega, by omega, hsw, ?_⟩
        intro m pat' hm hsw'
        cases m with
        | zero =>
          simp only [List.getElem?_cons_zero, Option.some.injEq] at hm
          subst hm
          exact ⟨by omega, fun _ => Nat.le_refl 0⟩
        | succ m =>
          have hfalse := matchGo_eq_none buf rest (i + 1) hr m pat' (by simpa using hm)
          rw [hfalse] at hsw'
          cases hsw'
      · rw [hr] at h
        obtain ⟨k', pat'', hget, hj', hl', hsw'', hmax⟩ := ih (i + 1) j' l' hr
        dsimp only at h
        by_cases hlt : pat0.length < l'
        · rw [if_pos hlt] at h
          simp only [Option.some.injEq, Prod.mk.injEq] at h
          obtain ⟨hj, hl⟩ := h
          refine ⟨k' + 1, pat'', by simpa using hget, by omega, by omega, hsw'', ?_⟩
          intro m pat' hm hsw'
          cases m with
          | zero =>
            simp only [List.getElem?_cons_zero, Option.some.injEq] at hm
            subst hm
            exact ⟨by omega, fun he => by omega⟩
          | succ m =>
            have hm' := hmax m pat' (by simpa using hm) hsw'
            exact ⟨by omega, fun he => by have := hm'.2 (by omega); omega⟩
        · rw [if_neg hlt] at h
          simp only [Option.some.injEq, Prod.mk.injEq] at h
          obtain ⟨hj, hl⟩ := h
          refine ⟨0, pat0, by simp, by omega, by omega, hsw, ?_⟩
          intro m pat' hm hsw'
          cases m with
          | zero =>
            simp only [List.getElem?_cons_zero, Option.some.injEq] at hm
            subst hm
            exact ⟨by omega, fun _ => Nat.zero_le 0⟩
          | succ m =>
            have hm' := hmax m pat' (by simpa using hm) hsw'
            exact ⟨by omega, fun _ => Nat.zero_le (m + 1)⟩
    · rw [if_neg hsw] at h
      obtain ⟨k', pat'', hget, hj', hl', hsw'', hmax⟩ := ih (i + 1) j l h
      refine ⟨k' + 1, pat'', by simpa using hget, by omega, by omega, hsw'', ?_⟩
      intro m pat' hm hsw'
      cases m with
      | zero =>
        simp only [List.getElem?_cons_zero, Option.some.injEq] at hm
        subst hm
        exact absurd hsw' hsw
      | succ m =>
        have hm' := hmax m pat' (by simpa using hm) hsw'
        exact ⟨hm'.1, fun he => by have := hm'.2 he; omega⟩

theorem matchRule_best (rules : List (List Nat)) (buf : List Nat) (i : Nat)
    (h : matchRule rules buf = some i) : IsBestMatch rules buf i := by
  unfold matchRule at h
  rcases hg : matchGo buf 0 rules with _ | ⟨j, l⟩
  · rw [hg] at h; simp at h
  · rw [hg] at h
    simp only [Option.map_some', Option.some.injEq] at h
    obtain ⟨k, pat, hget, hj, hl, hsw, hmax⟩ := matchGo_best buf rules 0 j l hg
    have hk : j = k := by omega
    subst h
    refine ⟨pat, by rw [hk]; exact hget, hsw, ?_⟩
    intro m pat' hm hs
    have h1 := (hmax m pat' hm hs).1
    have h2 := (hmax m pat' hm hs).2
    refine ⟨by omega, fun he => ?_⟩
    rw [hk]
    exact h2 (by omega)

theorem matchRule_none_of_all (rules : List (List Nat)) (buf : List Nat)
    (h : ∀ pat ∈ rules, startsWith pat buf = false) : matchRule rules buf = none := by
  unfold matchRule
  rw [matchGo_none_of_all buf rules 0 h]
  rfl

theorem routedDriver_append (xs ys : List Effect) :
    routedDriver (xs ++ ys) =
      match routedDriver xs with
      | some i => some i
      | none => routedDriver ys := by
  induction xs with
  | nil => simp [routedDriver]
  | cons e xs ih => cases e <;> simp [routedDriver, ih]

theorem routedDriver_handlerBody (rules : List (List Nat)) (hashFn : List Nat → List Nat)
    (kh : List (List Nat)) (inp : ConnInput) :
    routedDriver (handlerBody rules hashFn kh inp) = matchRule rules (matchBuf inp) := by
  unfold handlerBody tlsEffects
  rcases hm : matchRule rules (matchBuf inp) with _ | i <;>
    rcases htls : inp.tlsResult with _ | clear <;>
    simp only [hm, htls, routedDriver_append] <;>
    split_ifs <;>
    simp [routedDriver]

theorem close_mem_handlerBody_of_none (rules : List (List Nat))
    (hashFn : List Nat → List Nat) (kh : List (List Nat)) (inp : ConnInput)
    (h : matchRule rules (matchBuf inp) = none) :
    Effect.close ∈ handlerBody rules hashFn kh inp := by
  unfold handlerBody
  simp only [h]
  simp [List.mem_append]

end Gambit

namespace Gambit

/-! ## C2: which buffer the router actually matches -/

/-- C2, counterexample.  With the single registered pattern [3,0,0] (the
RDP driver's pattern) and a connection whose initial read yields exactly
the one byte B = [3], the handler still routes the connection to driver 0,
although no registered pattern is a prefix of B: tcpmanager.go line 171
passes the whole 1500-byte zero-padded buffer to Match, not `buf[:n]`,
and [3,0,0] is a prefix of [3,0,0,...].  The claim says no driver receives
the connection in this case. -/
theorem match_uses_padded_buffer_counterexample :
    routedDriver (handleConnection [[3, 0, 0]] (fun b => b) []
        ⟨true, false, [3], .ok, none⟩).2 = some 0 ∧
    startsWith [3, 0, 0] [3] = false := by
  constructor
  · rfl
  · rfl

/-- C2, amended.  For every accepted connection that is not dropped by the
ban check, the driver chosen is the one whose registered pattern is the
longest prefix of the full 1500-byte read buffer — the n read (or
TLS-unwrapped) bytes followed by zero padding — with ties broken towards
earlier registration; if no registered pattern is a prefix of that padded
buffer, no driver receives the connection and the connection is closed. -/
theorem route_matches_longest_prefix_of_padded_buffer
    (rules : List (List Nat)) (hashFn : List Nat → List Nat) (kh : List (List Nat))
    (inp : ConnInput) (hban : inp.remoteIsTCP = false ∨ inp.banned = false) :
    (∀ i, routedDriver (handleConnection rules hashFn kh inp).2 = some i →
      IsBestMatch rules (matchBuf inp) i) ∧
    ((∀ pat ∈ rules, startsWith pat (matchBuf inp) = false) →
      routedDriver (handleConnection rules hashFn kh inp).2 = none ∧
      Effect.close ∈ (handleConnection rules hashFn kh inp).2) := by
  have heffr : routedDriver (handleConnection rules hashFn kh inp).2 =
      matchRule rules (matchBuf inp) ∧
      (matchRule rules (matchBuf inp) = none →
        Effect.close ∈ (handleConnection rules hashFn kh inp).2) := by
    cases htcp : inp.remoteIsTCP with
    | false =>
      simp only [handleConnection, htcp, Bool.false_eq_true, if_false]
      exact ⟨routedDriver_handlerBody rules hashFn kh inp,
        fun h => close_mem_handlerBody_of_none rules hashFn kh inp h⟩
    | true =>
      have hb : inp.banned = false := by
        rcases hban with h | h
        · rw [htcp] at h; cases h
        · exact h
      simp only [handleConnection, htcp, hb, Bool.false_eq_true, if_false, if_true]
      constructor
      · simp only [routedDriver]
        exact routedDriver_handlerBody rules hashFn kh inp
      · intro h
        exact List.mem_cons_of_mem _ (close_mem_handlerBody_of_none rules hashFn kh inp h)
  obtain ⟨h1, h2⟩ := heffr
  constructor
  · intro i hi
    rw [h1] at hi
    exact matchRule_best rules (matchBuf inp) i hi
  · intro hall
    have hn := matchRule_none_of_all rules (matchBuf inp) hall
    exact ⟨by rw [h1, hn], h2 hn⟩

/-- Witness for C2 amended: patterns [3,0,0] and [3], a client that sends
[3,0,0,7]; the conclusion holds of the concrete run. -/
theorem route_matches_longest_prefix_padded_witness :
    (∀ i, routedDriver (handleConnection [[3, 0, 0], [3]] (fun b => b) []
        ⟨true, false, [3, 0, 0, 7], .ok, none⟩).2 = some i →
      IsBestMatch [[3, 0, 0], [3]]
        (matchBuf ⟨true, false, [3, 0, 0, 7], .ok, none⟩) i) ∧
    ((∀ pat ∈ [[3, 0, 0], [3]],
        startsWith pat (matchBuf ⟨true, false, [3, 0, 0, 7], .ok, none⟩) = false) →
      routedDriver (handleConnection [[3, 0, 0], [3]] (fun b => b) []
        ⟨true, false, [3, 0, 0, 7], .ok, none⟩).2 = none ∧
      Effect.close ∈ (handleConnection [[3, 0, 0], [3]] (fun b => b) []
        ⟨true, false, [3, 0, 0, 7], .ok, none⟩).2) :=
  route_matches_longest_prefix_of_padded_buffer [[3, 0, 0], [3]] (fun b => b) []
    ⟨true, false, [3, 0, 0, 7], .ok, none⟩ (Or.inr rfl)

end Gambit

namespace Gambit

/-! ## Counting lemmas for the concurrent model -/

theorem countP_split (f : PC → Bool) (a : List PC) (pc : PC) (b : List PC) :
    countP f (a ++ pc :: b) = countP f a + countP f b + (if f pc then 1 else 0) := by
  simp only [countP, List.filter_append, List.filter_cons, List.length_append]
  split <;> simp <;> omega

theorem countP_replicate (f : PC → Bool) (n : Nat) (pc : PC) :
    countP f (List.replicate n pc) = if f pc then n else 0 := by
  induction n with
  | zero => simp [countP]
  | succ n ih =>
    rw [List.replicate_succ]
    simp only [countP, List.filter_cons] at ih ⊢
    split <;> simp_all

theorem exists_of_countP_pos (f : PC → Bool) (l : List PC) (h : 0 < countP f l) :
    ∃ pc, pc ∈ l ∧ f pc = true := by
  unfold countP at h
  rw [List.length_pos] at h
  obtain ⟨pc, hpc⟩ := List.exists_mem_of_ne_nil _ h
  rw [List.mem_filter] at hpc
  exact ⟨pc, hpc.1, hpc.2⟩

theorem countP_pos_of_mem (f : PC → Bool) (l : List PC) (pc : PC)
    (hmem : pc ∈ l) (hf : f pc = true) : 0 < countP f l := by
  unfold countP
  rw [List.length_pos]
  intro h0
  rw [List.filter_eq_nil_iff] at h0
  exact h0 pc hmem hf

theorem stepTasks_cases (maxPort p : Nat) (os reg : Bool) :
    ∀ (tasks : List PC) (i : Nat),
      stepTasks maxPort p os reg tasks i = (tasks, os, reg) ∨
      ∃ a pc b, tasks = a ++ pc :: b ∧
        stepTasks maxPort p os reg tasks i =
          (a ++ (stepPC maxPort p os reg pc).1 :: b, (stepPC maxPort p os reg pc).2) := by
  intro tasks
  induction tasks with
  | nil => intro i; left; rfl
  | cons pc0 rest ih =>
    intro i
    cases i with
    | zero =>
      right
      exact ⟨[], pc0, rest, rfl, rfl⟩
    | succ i =>
      rcases ih i with h | ⟨a, pc, b, hr, heq⟩
      · left
        simp only [stepTasks]
        rw [h]
      · right
        refine ⟨pc0 :: a, pc, b, by rw [hr]; rfl, ?_⟩
        simp only [stepTasks]
        rw [heq]
        rfl

theorem stepTasks_fst_length (maxPort p : Nat) (os reg : Bool) :
    ∀ (tasks : List PC) (i : Nat),
      (stepTasks maxPort p os reg tasks i).1.length = tasks.length := by
  intro tasks
  induction tasks with
  | nil => intro i; rfl
  | cons pc rest ih =>
    intro i
    cases i with
    | zero => rfl
    | succ i => simp [stepTasks, ih]

theorem crun_tasks_length (maxPort p : Nat) :
    ∀ (tr : List Nat) (s : CState), (crun maxPort p tr s).tasks.length = s.tasks.length := by
  intro tr
  induction tr with
  | nil => intro s; rfl
  | cons i tr ih =>
    intro s
    rw [crun, ih]
    exact stepTasks_fst_length maxPort p s.os s.reg s.tasks i

end Gambit

namespace Gambit

/-! ## C4: concurrent CreateTCPListener calls -/

theorem invC_cstep (maxPort p : Nat) (hp : p ≤ maxPort) (s : CState) (i : Nat)
    (h : InvC s) : InvC (cstep maxPort p s i) := by
  obtain ⟨h1, h2, h3, h4, h5, h6⟩ := h
  unfold cstep
  rcases stepTasks_cases maxPort p s.os s.reg s.tasks i with heq | ⟨a, pc, b, hts, heq⟩
  · rw [heq]
    exact ⟨h1, h2, h3, h4, h5, h6⟩
  · rw [heq]
    rw [hts] at h1 h2 h3 h4 h5 h6
    have hnp : ¬ maxPort < p := by omega
    simp only [InvC]
    unfold winners at h1 h2 ⊢
    cases pc
    case atCheck =>
      simp only [stepPC, if_neg hnp]
      cases hos : s.os <;> cases hreg : s.reg <;>
        simp_all [countP_split, isInsertPC, isCreatedPC,
          List.mem_append, List.mem_cons] <;>
        try omega
    case atBind =>
      cases hos : s.os <;> cases hreg : s.reg <;>
        simp_all [stepPC, countP_split, isInsertPC, isCreatedPC,
          List.mem_append, List.mem_cons] <;>
        try omega
    case atInsert =>
      cases hos : s.os <;> cases hreg : s.reg <;>
        simp_all [stepPC, countP_split, isInsertPC, isCreatedPC,
          List.mem_append, List.mem_cons] <;>
        try omega
    case dRejected =>
      cases hos : s.os <;> cases hreg : s.reg <;>
        simp_all [stepPC, countP_split, isInsertPC, isCreatedPC,
          List.mem_append, List.mem_cons] <;>
        try omega
    case dAlready =>
      cases hos : s.os <;> cases hreg : s.reg <;>
        simp_all [stepPC, countP_split, isInsertPC, isCreatedPC,
          List.mem_append, List.mem_cons] <;>
        try omega
    case dErr =>
      cases hos : s.os <;> cases hreg : s.reg <;>
        simp_all [stepPC, countP_split, isInsertPC, isCreatedPC,
          List.mem_append, List.mem_cons] <;>
        try omega
    case dCreated =>
      cases hos : s.os <;> cases hreg : s.reg <;>
        simp_all [stepPC, countP_split, isInsertPC, isCreatedPC,
          List.mem_append, List.mem_cons] <;>
        try omega

theorem invC_init (n : Nat) : InvC (initC n) := by
  unfold InvC initC winners
  simp [countP_replicate, isInsertPC, isCreatedPC, List.mem_replicate]

theorem invC_crun (maxPort p : Nat) (hp : p ≤ maxPort) :
    ∀ (tr : List Nat) (s : CState), InvC s → InvC (crun maxPort p tr s) := by
  intro tr
  induction tr with
  | nil => intro s h; exact h
  | cons i tr ih => intro s h; exact ih _ (invC_cstep maxPort p hp s i h)

/-- C4.  For every port p ≤ MaxPort and every N ≥ 1 concurrent calls to
CreateTCPListener(p) from a state where p is neither registered nor bound,
and for every interleaving of their atomic actions (registry check,
net.Listen bind, registry insert) that runs all calls to completion,
exactly one call completes the create path — the port ends up OS-bound and
registered exactly once.  CreateTCPListener itself holds no lock (the
`wg.Wait()` on the fresh local WaitGroup at tcpmanager.go line 62 is a
no-op), but the OS grants the bind to exactly one caller, so every other
interleaved call ends in already-present or in a bind error. -/
theorem concurrent_create_exactly_one_listener (maxPort p n : Nat) (tr : List Nat)
    (hp : p ≤ maxPort) (hn : 1 ≤ n)
    (hdone : allDone (crun maxPort p tr (initC n)) = true) :
    countP isCreatedPC (crun maxPort p tr (initC n)).tasks = 1 ∧
    (crun maxPort p tr (initC n)).os = true ∧
    (crun maxPort p tr (initC n)).reg = true := by
  obtain ⟨h1, h2, h3, h4, h5, h6⟩ := invC_crun maxPort p hp tr (initC n) (invC_init n)
  set s := crun maxPort p tr (initC n) with hs
  have hlen : s.tasks.length = n := by
    rw [hs, crun_tasks_length]
    simp [initC]
  have halld : ∀ pc ∈ s.tasks, isDonePC pc = true := by
    intro pc hpc
    exact List.all_eq_true.mp hdone pc hpc
  have hins0 : countP isInsertPC s.tasks = 0 := by
    by_contra hne
    obtain ⟨pc, hpc, hf⟩ :=
      exists_of_countP_pos isInsertPC s.tasks (Nat.pos_of_ne_zero hne)
    have hd := halld pc hpc
    cases pc <;> simp [isInsertPC] at hf <;> simp [isDonePC] at hd
  have hwin : winners s.tasks = countP isCreatedPC s.tasks := by
    unfold winners
    omega
  by_cases hc : countP isCreatedPC s.tasks = 1
  · refine ⟨hc, ?_, h3.mpr hc⟩
    apply h2.mpr
    omega
  · exfalso
    have hc0 : countP isCreatedPC s.tasks = 0 := by
      have := h1
      omega
    have hos : s.os = false := by
      cases hoss : s.os
      · rfl
      · have := h2.mp hoss
        omega
    have hreg : s.reg = false := by
      cases hregg : s.reg
      · rfl
      · have := h3.mp hregg
        omega
    have hne : s.tasks ≠ [] := by
      intro h0
      rw [h0] at hlen
      simp at hlen
      omega
    obtain ⟨pc, hpc⟩ := List.exists_mem_of_ne_nil _ hne
    have hd := halld pc hpc
    cases pc
    · simp [isDonePC] at hd
    · simp [isDonePC] at hd
    · simp [isDonePC] at hd
    · exact h4 hpc
    · rw [h5 hpc] at hreg; cases hreg
    · rw [h6 hpc] at hos; cases hos
    · have := countP_pos_of_mem isCreatedPC s.tasks PC.dCreated hpc (by rfl)
      omega

/-- Witness for C4: MaxPort 10000, port 4444, two concurrent calls, the
schedule where both pass the registry check before either binds; task 0
binds and inserts, task 1 hits the bind error. -/
theorem concurrent_create_exactly_one_listener_witness :
    countP isCreatedPC (crun 10000 4444 [0, 1, 0, 0, 1] (initC 2)).tasks = 1 ∧
    (crun 10000 4444 [0, 1, 0, 0, 1] (initC 2)).os = true ∧
    (crun 10000 4444 [0, 1, 0, 0, 1] (initC 2)).reg = true :=
  concurrent_create_exactly_one_listener 10000 4444 2 [0, 1, 0, 0, 1]
    (by decide) (by decide) (by decide)

end Gambit
